import Mathlib

/-!
Shallow embedding of `dolo/algos/steady_state.py` (function `find_steady_state`)
and verification of its specification.

Numeric values are modelled by `ℚ` (exact rationals standing for the real
arithmetic); vectors are lists of rationals; matrices are lists of rows.
A positional force vector is a list of `Option ℚ`: `some v` stands for a
finite entry (a constraint), `none` for a non-finite entry (`nan`, a free
coordinate), mirroring `numpy.isfinite`.

External collaborators that are not part of this repository are abstracted as
parameters of the embedded function:
  * `rankOf`   — `numpy.linalg.matrix_rank` (third-party);
  * `solver`   — `scipy.optimize.root(fobj, z, method='lm')` (third-party),
                 whose result carries the final iterate `x` and a convergence
                 flag `success`, exactly the fields of scipy's OptimizeResult
                 that matter here;
  * `hstep`    — the base finite-difference step factor of the Jacobian
                 estimator.
Python exceptions (the `ValueError` of `list.index`) are modelled with
`Except String`; the `warnings.warn` side channel is modelled as a list of
warning strings returned alongside the result.
-/

namespace DoloSteadyState

/-- Numeric vector. -/
abbrev Vec := List ℚ

/-- Decidable equality of `Except` values, needed to evaluate the embedded
function on concrete inputs by `decide`. -/
instance exceptDecEq {ε α : Type} [DecidableEq ε] [DecidableEq α] : DecidableEq (Except ε α) := fun a b =>
  match a, b with
  | Except.ok x, Except.ok y =>
      if h : x = y then isTrue (by rw [h]) else isFalse (by simp [h])
  | Except.error e, Except.error f =>
      if h : e = f then isTrue (by rw [h]) else isFalse (by simp [h])
  | Except.ok _, Except.error _ => isFalse (by simp)
  | Except.error _, Except.ok _ => isFalse (by simp)

/-- The `Model` collaborator, as consumed by `find_steady_state`:
calibration vectors, symbol lists, and the pure `transition` / `arbitrage`
functions (`model.calibration[...]`, `model.symbols[...]`,
`model.functions[...]` in the source). -/
structure Model where
  symbols_states : List String
  symbols_controls : List String
  symbols_shocks : List String
  calibration_states : Vec
  calibration_controls : Vec
  calibration_parameters : Vec
  transition : Vec → Vec → Vec → Vec → Vec
  arbitrage : Vec → Vec → Vec → Vec → Vec → Vec

/-- The `force_values` argument: either a positional vector (list/tuple in the
source, `some` = finite entry, `none` = nan) or a mapping from state-symbol
name to target value (dict in the source, embedded as an association list
preserving insertion order, as Python dicts do). -/
inductive ForceValues where
  | positional (v : List (Option ℚ))
  | named (kv : List (String × ℚ))
deriving DecidableEq

/-- Result of the root solver `scipy.optimize.root(..., method='lm')`:
final iterate `x` and convergence flag `success`. -/
structure SolveResult where
  x : Vec
  success : Bool
deriving DecidableEq

/-- Return value of `find_steady_state`: either the Jacobian matrix (when
`return_jacobian` is true) or the pair of steady-state / steady-control
vectors (`[steady_state[:len(s0)], steady_state[len(s0):]]`). -/
inductive FSSReturn where
  | jacobian (jac : List Vec)
  | solution (s x : Vec)
deriving DecidableEq

/-- `model.symbols['states'].index(k)`: position of the first occurrence of
`k` in the state-symbol list, raising `ValueError` when absent (`list.index`
semantics). -/
def stateIndex (states : List String) (k : String) : Except String ℕ :=
  match states with
  | [] => Except.error ("ValueError: " ++ k ++ " is not in list")
  | s :: rest =>
    if s = k then Except.ok 0
    else Except.map (fun i => i + 1) (stateIndex rest k)

/-- The list comprehension
`[model.symbols['states'].index(k) for k in force_values.keys()]`:
looks every key up in order and propagates the first `ValueError`. -/
def indexList (states : List String) : List String → Except String (List ℕ)
  | [] => Except.ok []
  | k :: rest =>
    match stateIndex states k, indexList states rest with
    | Except.error msg, _ => Except.error msg
    | Except.ok _, Except.error msg => Except.error msg
    | Except.ok i, Except.ok is => Except.ok (i :: is)

/-- Normalisation of `force_values` performed by lines 26–32 of the source.
For a list/tuple, `inds = numpy.where(numpy.isfinite(force_values))[0]` is a
numpy integer array and `vals = force_values[inds]` indexes the Python
list/tuple with it: this succeeds only when the array has exactly one
element (yielding that single finite value, as in the demo `[0.3, nan]`) and
raises `TypeError` for any other number of finite entries.  For a dict,
`inds = [model.symbols['states'].index(k) for k in force_values.keys()]` and
`vals = force_values.values()`, raising `ValueError` on an absent key. -/
def normalizeForce (states : List String) : ForceValues → Except String (List ℕ × Vec)
  | ForceValues.positional v =>
    if ((List.range v.length).filter (fun i => (v.getD i none).isSome)).length = 1 then
      Except.ok ((List.range v.length).filter (fun i => (v.getD i none).isSome),
                 v.filterMap id)
    else
      Except.error "TypeError: only integer scalar arrays can be converted to a scalar index"
  | ForceValues.named kv =>
    Except.map (fun inds => (inds, kv.map Prod.snd))
      (indexList states (kv.map Prod.fst))

/-- Lifts `normalizeForce` to the optional argument: `force_values=None`
skips normalisation entirely. -/
def normalizeForceOpt (states : List String) : Option ForceValues → Except String (Option (List ℕ × Vec))
  | none => Except.ok none
  | some fv => Except.map some (normalizeForce states fv)

/-- The assembled residual `fobj` (lines 34–43 of the source), a closure over
the model functions, `ns = len(s0)`, the shock vector `e`, the parameters `p`
and the normalised constraints.  `fobj(z)` splits `z` into `s = z[:ns]`,
`x = z[ns:]`, computes `S = transition(s,x,e,p)` and
`r = arbitrage(s,x,s,x,p)`, concatenates `S - s` with `r`, and, when a force
specification is present, appends `S[inds] - vals`. -/
def fobj (m : Model) (ns : ℕ) (e p : Vec) (force : Option (List ℕ × Vec)) (z : Vec) : Vec :=
  let s := z.take ns
  let x := z.drop ns
  let S := m.transition s x e p
  let r := m.arbitrage s x s x p
  let res := (List.zipWith (fun a b => a - b) S s) ++ r
  match force with
  | none => res
  | some iv => res ++ List.zipWith (fun i v => S.getD i 0 - v) iv.1 iv.2

/-- Modelled from the spec: `MyJacobian` is imported from
`dolo.numeric.solver`, which is not among the provided sources.  Per §4.2 of
the spec it approximates the `m × n` Jacobian of `f` at `z` by finite
differences: each column perturbs one coordinate of `z` by a scale-adaptive
step proportional to `max |z_j| 1` (the factor `hstep` standing for the
machine-epsilon-derived base step) and divides the function-value delta by
the step.  Row `i`, column `j` holds `(f(z + h_j e_j)_i - f(z)_i) / h_j`. -/
def MyJacobian (hstep : ℚ) (f : Vec → Vec) (z : Vec) : List Vec :=
  let f0 := f z
  (List.range f0.length).map (fun i =>
    (List.range z.length).map (fun j =>
      let hj := hstep * max |z.getD j 0| 1
      ((f (z.mapIdx (fun t v => if t = j then v + hj else v))).getD i 0 - f0.getD i 0) / hj))

/-- The indeterminacy warning text emitted when the Jacobian is rank
deficient (line 57 of the source). -/
def rankWarning (n rank : ℕ) : String :=
  "There are " ++ toString n ++ " equilibrium variables to find, but the jacobian matrix is only of rank " ++ toString rank ++ ". The solution is indeterminate."

/-- The shock vector actually used: `e` when supplied (`e.ravel()` is the
identity on one-dimensional vectors), else
`numpy.zeros(len(model.symbols['shocks']))` (lines 21–24 of the source). -/
def shockVec (model : Model) : Option Vec → Vec
  | none => List.replicate model.symbols_shocks.length (0 : ℚ)
  | some v => v

/-- The initial guess `z = numpy.concatenate([s0, x0])` built from the
calibrated states and controls (line 19 of the source). -/
def z0 (model : Model) : Vec :=
  model.calibration_states ++ model.calibration_controls

/-- The residual closure exactly as `find_steady_state` assembles it:
`fobj` over the model functions with `ns = len(s0)`, the effective shock
vector, the calibrated parameters and the normalised force data. -/
def fobj0 (model : Model) (e : Option Vec) (force : Option (List ℕ × Vec)) : Vec → Vec :=
  fobj model model.calibration_states.length (shockVec model e)
    model.calibration_parameters force

/-- Embedding of `find_steady_state(model, e=None, force_values=None,
return_jacobian=False)`.  `rankOf` abstracts `numpy.linalg.matrix_rank`,
`solver` abstracts `scipy.optimize.root(..., method='lm')`, `hstep` is the
Jacobian estimator's base step.  The returned pair carries the result and
the list of warnings emitted during the call. -/
def find_steady_state (rankOf : List Vec → ℕ)
    (solver : (Vec → Vec) → Vec → SolveResult)
    (hstep : ℚ) (model : Model) (e : Option Vec)
    (force_values : Option ForceValues) (return_jacobian : Bool) :
    Except String (FSSReturn × List String) :=
  match normalizeForceOpt model.symbols_states force_values with
  | Except.error msg => Except.error msg
  | Except.ok force =>
    let f := fobj0 model e force
    let jac := MyJacobian hstep f (z0 model)
    if return_jacobian then
      Except.ok (FSSReturn.jacobian jac, [])
    else
      let rank := rankOf jac
      let warns := if rank < (z0 model).length then [rankWarning (z0 model).length rank] else []
      let sol := solver f (z0 model)
      let steady_state := sol.x
      Except.ok (FSSReturn.solution (steady_state.take model.calibration_states.length)
                                    (steady_state.drop model.calibration_states.length), warns)

/-- A small concrete model used to evaluate the embedded function on
explicit inputs: two states, one control, one shock, identity transition and
arbitrage residual equal to the control vector. -/
def exampleModel : Model where
  symbols_states := ["k", "w"]
  symbols_controls := ["c"]
  symbols_shocks := ["e"]
  calibration_states := [1, 2]
  calibration_controls := [3]
  calibration_parameters := []
  transition := fun s _ _ _ => s
  arbitrage := fun _ x _ _ _ => x

/-! ## Helper lemmas -/

/-- `list.index` errors exactly on absent keys. -/
theorem stateIndex_of_not_mem (states : List String) (k : String) (h : k ∉ states) :
    stateIndex states k = Except.error ("ValueError: " ++ k ++ " is not in list") := by
  induction states with
  | nil => rfl
  | cons a rest ih =>
    have ha : ¬(a = k) := fun hak => h (hak ▸ List.mem_cons_self a rest)
    have hrest : k ∉ rest := fun hk => h (List.mem_cons_of_mem a hk)
    simp [stateIndex, ha, ih hrest, Except.map]

/-- `list.index` succeeds on present keys. -/
theorem stateIndex_of_mem (states : List String) (k : String) (h : k ∈ states) :
    ∃ i, stateIndex states k = Except.ok i := by
  induction states with
  | nil => simp at h
  | cons a rest ih =>
    by_cases ha : a = k
    · exact ⟨0, by simp [stateIndex, ha]⟩
    · rcases List.mem_cons.mp h with h1 | h1
      · exact absurd h1.symm ha
      · obtain ⟨i, hi⟩ := ih h1
        exact ⟨i + 1, by simp [stateIndex, ha, hi, Except.map]⟩

/-- The key-lookup comprehension errors as soon as some key is absent. -/
theorem indexList_error (states : List String) (keys : List String)
    (h : ∃ k ∈ keys, k ∉ states) :
    ∃ msg, indexList states keys = Except.error msg := by
  induction keys with
  | nil => simp at h
  | cons k rest ih =>
    by_cases hk : k ∈ states
    · obtain ⟨k', hk', hk'n⟩ := h
      rcases List.mem_cons.mp hk' with h1 | h1
      · exact absurd hk (h1 ▸ hk'n)
      · obtain ⟨msg, hmsg⟩ := ih ⟨k', h1, hk'n⟩
        obtain ⟨i, hi⟩ := stateIndex_of_mem states k hk
        exact ⟨msg, by simp [indexList, hi, hmsg]⟩
    · exact ⟨"ValueError: " ++ k ++ " is not in list",
        by simp [indexList, stateIndex_of_not_mem states k hk]⟩

/-- Indexing into a `zipWith` below both lengths. -/
theorem zipWith_getD_of_lt {α β γ : Type} (f : α → β → γ) (l : List α) (l' : List β)
    (i : ℕ) (da : α) (db : β) (dc : γ) (h1 : i < l.length) (h2 : i < l'.length) :
    (List.zipWith f l l').getD i dc = f (l.getD i da) (l'.getD i db) := by
  induction l generalizing l' i with
  | nil => simp at h1
  | cons a as ih =>
    cases l' with
    | nil => simp at h2
    | cons b bs =>
      cases i with
      | zero => simp
      | succ n =>
        simp only [List.zipWith_cons_cons, List.getD_cons_succ]
        exact ih bs n (by simpa using h1) (by simpa using h2)

/-- Indexing into a `take` below the cut. -/
theorem take_getD_of_lt {α : Type} (l : List α) (n i : ℕ) (d : α) (h : i < n) :
    (l.take n).getD i d = l.getD i d := by
  induction l generalizing n i with
  | nil => simp
  | cons a as ih =>
    cases n with
    | zero => omega
    | succ m =>
      cases i with
      | zero => simp
      | succ j =>
        simp only [List.take_succ_cons, List.getD_cons_succ]
        exact ih m j (by omega)

/-! ## Claim theorems -/

/-- C1 (counterexample): two runs on the same model and inputs, one with a
solver reporting non-convergence (`success = false`) and one with a solver
reporting convergence (`success = true`) at the same final iterate, return
identical values — the caller cannot distinguish a converged root from a
best-effort non-root, refuting the claim that non-convergence is surfaced. -/
theorem nonroot_result_indistinguishable :
    find_steady_state (fun _ => 3) (fun _ _ => ⟨[0, 0, 0], false⟩) 1 exampleModel none none false
      = find_steady_state (fun _ => 3) (fun _ _ => ⟨[0, 0, 0], true⟩) 1 exampleModel none none false := by
  decide

/-- C1 (amended): `find_steady_state` discards the solver's convergence
status entirely: the returned value depends on the solver's result only
through its final iterate `x`, never through its `success` flag, so
non-convergence is not reported to the caller. -/
theorem find_steady_state_ignores_convergence_flag
    (rankOf : List Vec → ℕ) (solver solver' : (Vec → Vec) → Vec → SolveResult)
    (hstep : ℚ) (model : Model) (e : Option Vec) (fv : Option ForceValues) (rj : Bool)
    (h : ∀ f z, (solver f z).x = (solver' f z).x) :
    find_steady_state rankOf solver hstep model e fv rj
      = find_steady_state rankOf solver' hstep model e fv rj := by
  unfold find_steady_state
  cases hn : normalizeForceOpt model.symbols_states fv with
  | error msg => rfl
  | ok force =>
    cases rj with
    | true => rfl
    | false => simp only [h]

/-- Witness for C1's amended theorem at a concrete model and solvers
differing only in the convergence flag. -/
theorem find_steady_state_ignores_convergence_flag_witness :
    find_steady_state (fun _ => 3) (fun _ z => ⟨z, false⟩) 1 exampleModel none none false
      = find_steady_state (fun _ => 3) (fun _ z => ⟨z, true⟩) 1 exampleModel none none false :=
  find_steady_state_ignores_convergence_flag (fun _ => 3)
    (fun _ z => ⟨z, false⟩) (fun _ z => ⟨z, true⟩) 1 exampleModel none none false
    (fun _ _ => rfl)

/-- C2 (counterexample): `exampleModel` has two state symbols, yet a
positional force vector of length one (a shape mismatch) is not rejected:
the call performs its numeric work and returns a best-effort solution
instead of failing with a shape-mismatch error. -/
theorem positional_length_mismatch_not_rejected :
    find_steady_state (fun _ => 3) (fun _ z => ⟨z, true⟩) 1 exampleModel none
        (some (ForceValues.positional [some (1/2)])) false
      = Except.ok (FSSReturn.solution [1, 2] [3], []) := by
  decide

/-- C2 (amended): the length of a positional force vector is never checked
against the state count.  What happens instead is decided by the number of
finite entries: with exactly one finite entry (within the state range) the
call is accepted — even when the vector's length differs from the number of
state symbols — and proceeds to the Jacobian and solver, returning a
best-effort solution; with any other number of finite entries the call fails
during normalisation with the `TypeError` of indexing a Python list by a
numpy array (line 29), uniformly in the rank oracle, solver, step and
`return_jacobian` flag — an indexing accident, not a shape-mismatch check. -/
theorem positional_force_no_shape_check
    (rankOf : List Vec → ℕ) (solver : (Vec → Vec) → Vec → SolveResult) (hstep : ℚ)
    (model : Model) (e : Option Vec) (v : List (Option ℚ)) :
    (v.length ≤ model.calibration_states.length →
     ((List.range v.length).filter (fun i => (v.getD i none).isSome)).length = 1 →
      ∃ s x w, find_steady_state rankOf solver hstep model e
          (some (ForceValues.positional v)) false
        = Except.ok (FSSReturn.solution s x, w))
  ∧ (((List.range v.length).filter (fun i => (v.getD i none).isSome)).length ≠ 1 →
      ∀ rj, find_steady_state rankOf solver hstep model e
          (some (ForceValues.positional v)) rj
        = Except.error "TypeError: only integer scalar arrays can be converted to a scalar index") := by
  constructor
  · intro _ h1
    have hn : normalizeForceOpt model.symbols_states (some (ForceValues.positional v))
        = Except.ok (some ((List.range v.length).filter (fun i => (v.getD i none).isSome),
                           v.filterMap id)) := by
      simp only [normalizeForceOpt, normalizeForce]
      rw [if_pos h1]
      rfl
    unfold find_steady_state
    rw [hn]
    exact ⟨_, _, _, rfl⟩
  · intro h1 rj
    have hn : normalizeForceOpt model.symbols_states (some (ForceValues.positional v))
        = Except.error
            "TypeError: only integer scalar arrays can be converted to a scalar index" := by
      simp only [normalizeForceOpt, normalizeForce]
      rw [if_neg h1]
      rfl
    unfold find_steady_state
    rw [hn]

/-- Witness for C2's amended theorem: against the two-state model, the
length-one vector with a single finite entry is accepted and solved, while a
length-three vector with two finite entries fails with the `TypeError`. -/
theorem positional_force_no_shape_check_witness :
    (∃ s x w, find_steady_state (fun _ => 3) (fun _ z => ⟨z, true⟩) 1 exampleModel none
        (some (ForceValues.positional [some (1/2)])) false
      = Except.ok (FSSReturn.solution s x, w)) ∧
    (find_steady_state (fun _ => 3) (fun _ z => ⟨z, true⟩) 1 exampleModel none
        (some (ForceValues.positional [some (1/2), some (7/10), none])) false
      = Except.error "TypeError: only integer scalar arrays can be converted to a scalar index") :=
  ⟨(positional_force_no_shape_check (fun _ => 3) (fun _ z => ⟨z, true⟩) 1 exampleModel
      none [some (1/2)]).1 (by decide) (by decide),
   (positional_force_no_shape_check (fun _ => 3) (fun _ z => ⟨z, true⟩) 1 exampleModel
      none [some (1/2), some (7/10), none]).2 (by decide) false⟩

/-- C3: a named force mapping containing a key that is not a state symbol
makes the call fail with the lookup `ValueError`, and the error is the same
for every rank oracle, solver, step size and `return_jacobian` flag — so it
is raised before the Jacobian is evaluated and before any solver work. -/
theorem invalid_named_constraint_raises_before_solving
    (model : Model) (e : Option Vec) (kv : List (String × ℚ))
    (hk : ∃ p ∈ kv, p.1 ∉ model.symbols_states) :
    ∃ msg, ∀ (rankOf : List Vec → ℕ) (solver : (Vec → Vec) → Vec → SolveResult)
        (hstep : ℚ) (rj : Bool),
      find_steady_state rankOf solver hstep model e (some (ForceValues.named kv)) rj
        = Except.error msg := by
  obtain ⟨p, hp, hpn⟩ := hk
  obtain ⟨msg, hmsg⟩ := indexList_error model.symbols_states (kv.map Prod.fst)
    ⟨p.1, List.mem_map_of_mem Prod.fst hp, hpn⟩
  refine ⟨msg, fun rankOf solver hstep rj => ?_⟩
  unfold find_steady_state normalizeForceOpt normalizeForce
  simp [hmsg, Except.map]

/-- Witness for C3 at a concrete model and an absent key. -/
theorem invalid_named_constraint_raises_before_solving_witness :
    (∃ p ∈ [("q", (3:ℚ))], p.1 ∉ exampleModel.symbols_states) ∧
    ∃ msg, ∀ (rankOf : List Vec → ℕ) (solver : (Vec → Vec) → Vec → SolveResult)
        (hstep : ℚ) (rj : Bool),
      find_steady_state rankOf solver hstep exampleModel none
          (some (ForceValues.named [("q", 3)])) rj
        = Except.error msg :=
  ⟨by decide, invalid_named_constraint_raises_before_solving exampleModel none
    [("q", 3)] (by decide)⟩

/-- C5: passing `e = none` gives exactly the same result as passing the
explicit zero vector of length the number of shock symbols, for every model,
force specification and `return_jacobian` flag. -/
theorem shock_default_is_zero_vector
    (rankOf : List Vec → ℕ) (solver : (Vec → Vec) → Vec → SolveResult) (hstep : ℚ)
    (model : Model) (fv : Option ForceValues) (rj : Bool) :
    find_steady_state rankOf solver hstep model none fv rj
      = find_steady_state rankOf solver hstep model
          (some (List.replicate model.symbols_shocks.length 0)) fv rj := rfl

/-- C6: with `return_jacobian = true` the call returns only the
finite-difference Jacobian of the assembled residual at the calibrated
initial guess `z0 = s0 ++ x0` (and no warnings); the right-hand side does
not mention `solver` or `rankOf`, which are universally quantified, so no
root-solver iteration and no rank diagnostic take part in the result. -/
theorem return_jacobian_short_circuits
    (rankOf : List Vec → ℕ) (solver : (Vec → Vec) → Vec → SolveResult) (hstep : ℚ)
    (model : Model) (e : Option Vec) (fv : Option ForceValues)
    (nf : Option (List ℕ × Vec))
    (hn : normalizeForceOpt model.symbols_states fv = Except.ok nf) :
    find_steady_state rankOf solver hstep model e fv true
      = Except.ok (FSSReturn.jacobian (MyJacobian hstep (fobj0 model e nf) (z0 model)), []) := by
  unfold find_steady_state
  rw [hn]
  rfl

/-- Witness for C6 at a concrete model with no force specification. -/
theorem return_jacobian_short_circuits_witness :
    normalizeForceOpt exampleModel.symbols_states none = Except.ok none ∧
    find_steady_state (fun _ => 0) (fun _ z => ⟨z, true⟩) 1 exampleModel none none true
      = Except.ok (FSSReturn.jacobian
          (MyJacobian 1 (fobj0 exampleModel none none) (z0 exampleModel)), []) :=
  ⟨rfl, return_jacobian_short_circuits (fun _ => 0) (fun _ z => ⟨z, true⟩) 1
    exampleModel none none none rfl⟩

/-- C7: on the solving path the call never raises: it returns the split of
the solver's final iterate, with the warning list equal to
`[rankWarning n rank]` exactly when the numerical rank of the Jacobian at
the initial guess is below the unknown count `n = (z0 model).length`
(`= ns + nx`), and empty otherwise; the solver's output appears in the
result in both cases, so the diagnostic never blocks solving. -/
theorem rank_diagnostic_on_solve_path
    (rankOf : List Vec → ℕ) (solver : (Vec → Vec) → Vec → SolveResult) (hstep : ℚ)
    (model : Model) (e : Option Vec) (fv : Option ForceValues)
    (nf : Option (List ℕ × Vec))
    (hn : normalizeForceOpt model.symbols_states fv = Except.ok nf) :
    find_steady_state rankOf solver hstep model e fv false
      = Except.ok (FSSReturn.solution
          ((solver (fobj0 model e nf) (z0 model)).x.take model.calibration_states.length)
          ((solver (fobj0 model e nf) (z0 model)).x.drop model.calibration_states.length),
          if rankOf (MyJacobian hstep (fobj0 model e nf) (z0 model)) < (z0 model).length
          then [rankWarning (z0 model).length
                  (rankOf (MyJacobian hstep (fobj0 model e nf) (z0 model)))]
          else []) := by
  unfold find_steady_state
  rw [hn]
  rfl

/-- Witness for C7 with a rank oracle reporting a deficient rank: the
warning fires and the solve still happens. -/
theorem rank_diagnostic_on_solve_path_witness :
    normalizeForceOpt exampleModel.symbols_states none = Except.ok none ∧
    find_steady_state (fun _ => 1) (fun _ z => ⟨z, true⟩) 1 exampleModel none none false
      = Except.ok (FSSReturn.solution [1, 2] [3], [rankWarning 3 1]) :=
  ⟨rfl, rank_diagnostic_on_solve_path (fun _ => 1) (fun _ z => ⟨z, true⟩) 1
    exampleModel none none none rfl⟩

/-- C8: a normally returning solve yields the pair of the solver's final
vector split at `ns`: first component `take ns`, of length the number of
state symbols, second component `drop ns`, of length the number of control
symbols (given the calibration vectors match the symbol counts and the
solver preserves the iterate length, as scipy's `root` does). -/
theorem solution_is_split_at_ns
    (rankOf : List Vec → ℕ) (solver : (Vec → Vec) → Vec → SolveResult) (hstep : ℚ)
    (model : Model) (e : Option Vec) (fv : Option ForceValues)
    (nf : Option (List ℕ × Vec))
    (hn : normalizeForceOpt model.symbols_states fv = Except.ok nf)
    (hcs : model.calibration_states.length = model.symbols_states.length)
    (hcx : model.calibration_controls.length = model.symbols_controls.length)
    (hsol : (solver (fobj0 model e nf) (z0 model)).x.length
              = model.symbols_states.length + model.symbols_controls.length) :
    ∃ w, find_steady_state rankOf solver hstep model e fv false
        = Except.ok (FSSReturn.solution
            ((solver (fobj0 model e nf) (z0 model)).x.take model.calibration_states.length)
            ((solver (fobj0 model e nf) (z0 model)).x.drop model.calibration_states.length), w)
      ∧ ((solver (fobj0 model e nf) (z0 model)).x.take model.calibration_states.length).length
          = model.symbols_states.length
      ∧ ((solver (fobj0 model e nf) (z0 model)).x.drop model.calibration_states.length).length
          = model.symbols_controls.length := by
  refine ⟨if rankOf (MyJacobian hstep (fobj0 model e nf) (z0 model)) < (z0 model).length
    then [rankWarning (z0 model).length
            (rankOf (MyJacobian hstep (fobj0 model e nf) (z0 model)))]
    else [], ?_, ?_, ?_⟩
  · unfold find_steady_state
    rw [hn]
    rfl
  · rw [List.length_take, hsol, hcs]
    omega
  · rw [List.length_drop, hsol, hcs]
    omega

/-- Witness for C8 at a concrete model with an iterate-preserving solver. -/
theorem solution_is_split_at_ns_witness :
    normalizeForceOpt exampleModel.symbols_states none = Except.ok none ∧
    exampleModel.calibration_states.length = exampleModel.symbols_states.length ∧
    exampleModel.calibration_controls.length = exampleModel.symbols_controls.length ∧
    (((fun _ z => (⟨z, true⟩ : SolveResult)) (fobj0 exampleModel none none)
        (z0 exampleModel)).x.length
      = exampleModel.symbols_states.length + exampleModel.symbols_controls.length) ∧
    ∃ w, find_steady_state (fun _ => 3) (fun _ z => ⟨z, true⟩) 1 exampleModel none none false
        = Except.ok (FSSReturn.solution
            (((fun _ z => (⟨z, true⟩ : SolveResult)) (fobj0 exampleModel none none)
                (z0 exampleModel)).x.take exampleModel.calibration_states.length)
            (((fun _ z => (⟨z, true⟩ : SolveResult)) (fobj0 exampleModel none none)
                (z0 exampleModel)).x.drop exampleModel.calibration_states.length), w)
      ∧ (((fun _ z => (⟨z, true⟩ : SolveResult)) (fobj0 exampleModel none none)
            (z0 exampleModel)).x.take exampleModel.calibration_states.length).length
          = exampleModel.symbols_states.length
      ∧ (((fun _ z => (⟨z, true⟩ : SolveResult)) (fobj0 exampleModel none none)
            (z0 exampleModel)).x.drop exampleModel.calibration_states.length).length
          = exampleModel.symbols_controls.length :=
  ⟨rfl, rfl, rfl, by decide,
    solution_is_split_at_ns (fun _ => 3) (fun _ z => ⟨z, true⟩) 1 exampleModel none none
      none rfl rfl rfl (by decide)⟩

/-- C9: the call is referentially transparent - its result is a function of
the declared inputs alone, so two calls with componentwise identical models
and identical shocks, constraints and flags return identical results. -/
theorem find_steady_state_deterministic
    (rankOf : List Vec → ℕ) (solver : (Vec → Vec) → Vec → SolveResult) (hstep : ℚ)
    (m m' : Model)
    (hss : m.symbols_states = m'.symbols_states)
    (hsc : m.symbols_controls = m'.symbols_controls)
    (hsh : m.symbols_shocks = m'.symbols_shocks)
    (hcs : m.calibration_states = m'.calibration_states)
    (hcc : m.calibration_controls = m'.calibration_controls)
    (hcp : m.calibration_parameters = m'.calibration_parameters)
    (ht : m.transition = m'.transition)
    (ha : m.arbitrage = m'.arbitrage)
    (e : Option Vec) (fv : Option ForceValues) (rj : Bool) :
    find_steady_state rankOf solver hstep m e fv rj
      = find_steady_state rankOf solver hstep m' e fv rj := by
  cases m
  cases m'
  simp only [] at hss hsc hsh hcs hcc hcp ht ha
  subst hss hsc hsh hcs hcc hcp ht ha
  rfl

/-- Witness for C9: two calls on (two copies of) the same model agree. -/
theorem find_steady_state_deterministic_witness :
    find_steady_state (fun _ => 3) (fun _ z => ⟨z, true⟩) 1 exampleModel none none false
      = find_steady_state (fun _ => 3) (fun _ z => ⟨z, true⟩) 1 exampleModel none none false :=
  find_steady_state_deterministic (fun _ => 3) (fun _ z => ⟨z, true⟩) 1
    exampleModel exampleModel rfl rfl rfl rfl rfl rfl rfl rfl none none false

/-- C10: on the `return_jacobian = true` path the rank diagnostic is dead
code: even when the rank oracle reports a deficient rank the warning list is
empty, and the result does not depend on the rank oracle at all. -/
theorem jacobian_path_skips_rank_diagnostic
    (rankOf rankOf' : List Vec → ℕ) (solver : (Vec → Vec) → Vec → SolveResult)
    (hstep : ℚ) (model : Model) (e : Option Vec) (fv : Option ForceValues)
    (nf : Option (List ℕ × Vec))
    (hn : normalizeForceOpt model.symbols_states fv = Except.ok nf)
    (hdef : rankOf (MyJacobian hstep (fobj0 model e nf) (z0 model)) < (z0 model).length) :
    find_steady_state rankOf solver hstep model e fv true
      = Except.ok (FSSReturn.jacobian (MyJacobian hstep (fobj0 model e nf) (z0 model)), [])
    ∧ find_steady_state rankOf solver hstep model e fv true
      = find_steady_state rankOf' solver hstep model e fv true := by
  constructor
  · unfold find_steady_state
    rw [hn]
    rfl
  · unfold find_steady_state
    rw [hn]
    rfl

/-- Witness for C10: a rank oracle reporting rank 0 (< 3 unknowns) still
produces the Jacobian with no warning. -/
theorem jacobian_path_skips_rank_diagnostic_witness :
    normalizeForceOpt exampleModel.symbols_states none = Except.ok none ∧
    (fun _ => 0 : List Vec → ℕ) (MyJacobian 1 (fobj0 exampleModel none none) (z0 exampleModel))
        < (z0 exampleModel).length ∧
    (find_steady_state (fun _ => 0) (fun _ z => ⟨z, true⟩) 1 exampleModel none none true
      = Except.ok (FSSReturn.jacobian
          (MyJacobian 1 (fobj0 exampleModel none none) (z0 exampleModel)), [])
    ∧ find_steady_state (fun _ => 0) (fun _ z => ⟨z, true⟩) 1 exampleModel none none true
      = find_steady_state (fun _ => 99) (fun _ z => ⟨z, true⟩) 1 exampleModel none none true) :=
  ⟨rfl, by decide,
    jacobian_path_skips_rank_diagnostic (fun _ => 0) (fun _ => 99) (fun _ z => ⟨z, true⟩) 1
      exampleModel none none none rfl (by decide)⟩

/-- C4: for `z` of length `ns + nx` (and model functions of the contracted
lengths), the assembled residual has length `ns + nx` when unconstrained and
`ns + nx + k` when `k` constrained indices are active, and its entries are,
in order: `transition(s,x,e,p)[i] - s[i]` for the first `ns` positions,
`arbitrage(s,x,s,x,p)[j]` for the next `nx` positions (next-period arguments
equal to current), and `transition(s,x,e,p)[inds[t]] - vals[t]` for the `k`
trailing positions. -/
theorem fobj_assembles_residuals
    (m : Model) (ns nx : ℕ) (e p : Vec) (inds : List ℕ) (vals : Vec) (z : Vec)
    (hz : z.length = ns + nx)
    (hS : (m.transition (z.take ns) (z.drop ns) e p).length = ns)
    (hr : (m.arbitrage (z.take ns) (z.drop ns) (z.take ns) (z.drop ns) p).length = nx)
    (hk : inds.length = vals.length) :
    (fobj m ns e p none z).length = ns + nx
    ∧ (fobj m ns e p (some (inds, vals)) z).length = ns + nx + inds.length
    ∧ (∀ i, i < ns →
        (fobj m ns e p (some (inds, vals)) z).getD i 0
          = (m.transition (z.take ns) (z.drop ns) e p).getD i 0 - z.getD i 0)
    ∧ (∀ j, j < nx →
        (fobj m ns e p (some (inds, vals)) z).getD (ns + j) 0
          = (m.arbitrage (z.take ns) (z.drop ns) (z.take ns) (z.drop ns) p).getD j 0)
    ∧ (∀ t, t < inds.length →
        (fobj m ns e p (some (inds, vals)) z).getD (ns + nx + t) 0
          = (m.transition (z.take ns) (z.drop ns) e p).getD (inds.getD t 0) 0
              - vals.getD t 0) := by
  have hsl : (z.take ns).length = ns := by
    rw [List.length_take, hz]
    omega
  have hbasel :
      (List.zipWith (fun a b : ℚ => a - b)
        (m.transition (z.take ns) (z.drop ns) e p) (z.take ns)).length = ns := by
    rw [List.length_zipWith, hS, hsl]
    omega
  have hextral :
      (List.zipWith (fun (i : ℕ) (v : ℚ) =>
        (m.transition (z.take ns) (z.drop ns) e p).getD i 0 - v) inds vals).length
        = inds.length := by
    rw [List.length_zipWith, hk]
    omega
  refine ⟨?_, ?_, ?_, ?_, ?_⟩
  · simp only [fobj]
    rw [List.length_append, hbasel, hr]
  · simp only [fobj]
    rw [List.length_append, List.length_append, hbasel, hr, hextral]
  · intro i hi
    simp only [fobj]
    set s := z.take ns with hsdef
    set S := m.transition s (z.drop ns) e p with hSdef
    set r := m.arbitrage s (z.drop ns) s (z.drop ns) p with hrdef
    set base := List.zipWith (fun a b : ℚ => a - b) S s with hbdef
    set extra := List.zipWith (fun (i : ℕ) (v : ℚ) => S.getD i 0 - v) inds vals with hedef
    rw [List.getD_append (base ++ r) extra 0 i
        (by rw [List.length_append, hbasel, hr]; omega)]
    rw [List.getD_append base r 0 i (by rw [hbasel]; omega)]
    rw [hbdef, zipWith_getD_of_lt (fun a b : ℚ => a - b) S s i 0 0 0
        (by rw [hS]; omega) (by rw [hsl]; omega)]
    rw [hsdef, take_getD_of_lt z ns i 0 hi]
  · intro j hj
    simp only [fobj]
    set s := z.take ns with hsdef
    set S := m.transition s (z.drop ns) e p with hSdef
    set r := m.arbitrage s (z.drop ns) s (z.drop ns) p with hrdef
    set base := List.zipWith (fun a b : ℚ => a - b) S s with hbdef
    set extra := List.zipWith (fun (i : ℕ) (v : ℚ) => S.getD i 0 - v) inds vals with hedef
    rw [List.getD_append (base ++ r) extra 0 (ns + j)
        (by rw [List.length_append, hbasel, hr]; omega)]
    rw [List.getD_append_right base r 0 (ns + j) (by rw [hbasel]; omega)]
    rw [hbasel, Nat.add_sub_cancel_left]
  · intro t ht
    simp only [fobj]
    set s := z.take ns with hsdef
    set S := m.transition s (z.drop ns) e p with hSdef
    set r := m.arbitrage s (z.drop ns) s (z.drop ns) p with hrdef
    set base := List.zipWith (fun a b : ℚ => a - b) S s with hbdef
    set extra := List.zipWith (fun (i : ℕ) (v : ℚ) => S.getD i 0 - v) inds vals with hedef
    rw [List.getD_append_right (base ++ r) extra 0 (ns + nx + t)
        (by rw [List.length_append, hbasel, hr]; omega)]
    rw [show (base ++ r).length = ns + nx by rw [List.length_append, hbasel, hr]]
    rw [Nat.add_sub_cancel_left]
    rw [hedef, zipWith_getD_of_lt (fun (i : ℕ) (v : ℚ) => S.getD i 0 - v) inds vals t 0 0 0
        (by omega) (by rw [← hk]; omega)]

/-- Witness for C4 at a concrete model, constraint and input vector. -/
theorem fobj_assembles_residuals_witness :
    (([1, 2, 3] : Vec).length = 2 + 1) ∧
    ((exampleModel.transition (([1, 2, 3] : Vec).take 2) (([1, 2, 3] : Vec).drop 2)
        [0] []).length = 2) ∧
    ((exampleModel.arbitrage (([1, 2, 3] : Vec).take 2) (([1, 2, 3] : Vec).drop 2)
        (([1, 2, 3] : Vec).take 2) (([1, 2, 3] : Vec).drop 2) []).length = 1) ∧
    (([0] : List ℕ).length = ([1/2] : Vec).length) ∧
    ((fobj exampleModel 2 [0] [] none [1, 2, 3]).length = 2 + 1
    ∧ (fobj exampleModel 2 [0] [] (some ([0], [1/2])) [1, 2, 3]).length
        = 2 + 1 + ([0] : List ℕ).length
    ∧ (∀ i, i < 2 →
        (fobj exampleModel 2 [0] [] (some ([0], [1/2])) [1, 2, 3]).getD i 0
          = (exampleModel.transition (([1, 2, 3] : Vec).take 2) (([1, 2, 3] : Vec).drop 2)
              [0] []).getD i 0 - ([1, 2, 3] : Vec).getD i 0)
    ∧ (∀ j, j < 1 →
        (fobj exampleModel 2 [0] [] (some ([0], [1/2])) [1, 2, 3]).getD (2 + j) 0
          = (exampleModel.arbitrage (([1, 2, 3] : Vec).take 2) (([1, 2, 3] : Vec).drop 2)
              (([1, 2, 3] : Vec).take 2) (([1, 2, 3] : Vec).drop 2) []).getD j 0)
    ∧ (∀ t, t < ([0] : List ℕ).length →
        (fobj exampleModel 2 [0] [] (some ([0], [1/2])) [1, 2, 3]).getD (2 + 1 + t) 0
          = (exampleModel.transition (([1, 2, 3] : Vec).take 2) (([1, 2, 3] : Vec).drop 2)
              [0] []).getD (([0] : List ℕ).getD t 0) 0 - ([1/2] : Vec).getD t 0)) :=
  ⟨by decide, by decide, by decide, by decide,
    fobj_assembles_residuals exampleModel 2 1 [0] [] [0] [1/2] [1, 2, 3]
      (by decide) (by decide) (by decide) (by decide)⟩

end DoloSteadyState
